import Mathlib

/-
Verification of the advanced-vector repository (src/advanced-vector/vector.h):
a shallow embedding of RawMemory and Vector, followed by theorems about the
claims of the specification. A Vector is modelled by the list of its live
elements (slots [0, size) of the buffer) together with the capacity of the
owned RawMemory block; size is the length of the list.
-/

namespace AdvVector

/-- State of Vector<T>: live elements in sequence order plus the capacity of
the owned RawMemory block (vector.h lines 346 to 347: data_, size_). -/
structure VecState (α : Type) where
  elems : List α
  cap : Nat
  deriving Repr, DecidableEq

/-- The container invariant: size never exceeds capacity. Slots [0, size)
hold live constructed values by construction of the model, since elems is
exactly the list of live values. -/
def Inv {α : Type} (s : VecState α) : Prop := s.elems.length ≤ s.cap

instance {α : Type} (s : VecState α) : Decidable (Inv s) := by
  unfold Inv; infer_instance

/-- Vector() (line 102): empty, size 0, no allocation. -/
def defaultCtor (α : Type) : VecState α := { elems := [], cap := 0 }

/-- Vector::EmplaceBack (lines 220 to 234). When size_ == Capacity a new
block of (size_ == 0 ? 1 : size_ * 2) slots is allocated, FillNewData
relocates the old elements, the new element is constructed at slot size_,
the old elements are destroyed and the new block adopted by Swap; otherwise
the element is constructed directly at slot size_. Net element sequence in
both branches: old elements followed by the new one. -/
def EmplaceBack {α : Type} (s : VecState α) (v : α) : VecState α :=
  if s.elems.length = s.cap then
    { elems := s.elems ++ [v],
      cap := if s.elems.length = 0 then 1 else s.elems.length * 2 }
  else
    { elems := s.elems ++ [v], cap := s.cap }

/-- A sequence of appends starting from the default constructed vector. -/
def pushAll {α : Type} (l : List α) : VecState α :=
  l.foldl EmplaceBack (defaultCtor α)

theorem EmplaceBack_elems {α : Type} (s : VecState α) (v : α) :
    (EmplaceBack s v).elems = s.elems ++ [v] := by
  unfold EmplaceBack; split <;> rfl

theorem pushAll_elems {α : Type} (l : List α) :
    (pushAll l).elems = l := by
  have h : ∀ (l : List α) (s : VecState α),
      (l.foldl EmplaceBack s).elems = s.elems ++ l := by
    intro l
    induction l with
    | nil => intro s; simp [List.foldl]
    | cons a t ih =>
        intro s
        simp [List.foldl, ih, EmplaceBack_elems]
  simpa [pushAll, defaultCtor] using h l (defaultCtor α)

theorem EmplaceBack_cap_mono {α : Type} (s : VecState α) (v : α) :
    s.cap ≤ (EmplaceBack s v).cap := by
  unfold EmplaceBack
  split
  · next h =>
      simp only []
      split
      · next h0 => omega
      · next h0 => omega
  · simp

theorem EmplaceBack_cap_eq {α : Type} (s : VecState α) (v : α) :
    (EmplaceBack s v).cap =
      if s.elems.length = s.cap then max 1 (s.elems.length * 2) else s.cap := by
  unfold EmplaceBack
  split
  · next h =>
      simp only [h, if_pos]
      split
      · next h0 => simp [h0]
      · next h0 => omega
  · next h => simp [h]

/-- Result of RawMemory::Allocate: either the null block (capacity 0), a raw
block of a given byte count obtained from operator new, or a propagated
allocation failure (std::bad_alloc). -/
inductive AllocResult where
  | empty
  | block (byteCount : Nat)
  | alloc_failure
  deriving Repr, DecidableEq

/-- The modulus of size_t arithmetic: the byte count n * sizeof(T) is a
size_t product, computed modulo 2 ^ 64. -/
def size_t_MOD : Nat := 2 ^ 64

/-- RawMemory::Allocate (vector.h lines 84 to 86):
n != 0 ? static_cast(operator new(n * sizeof(T))) : nullptr.
The parameter allocOk models whether operator new can satisfy a request of
the given byte count; a refused request throws, which propagates. The
product n * sizeof(T) is size_t arithmetic, hence taken modulo 2 ^ 64;
the source performs no overflow check. -/
def Allocate (sizeofT : Nat) (allocOk : Nat → Bool) (n : Nat) : AllocResult :=
  if n = 0 then .empty
  else
    if allocOk (n * sizeofT % size_t_MOD) then .block (n * sizeofT % size_t_MOD)
    else .alloc_failure

/-- C2 counterexample: with sizeof(T) = 8 and n = 2 ^ 61 + 1 the byte size
n * sizeof(T) overflows size_t, yet Allocate does not fail: it calls
operator new on the wrapped byte count 8 and returns a block of 8 bytes,
which is not sized for n elements. This refutes the claim that an
overflowing byte size yields an allocation failure. -/
theorem c2_allocate_overflow_counterexample :
    size_t_MOD ≤ (2 ^ 61 + 1) * 8 ∧
    Allocate 8 (fun _ => true) (2 ^ 61 + 1) ≠ AllocResult.alloc_failure ∧
    Allocate 8 (fun _ => true) (2 ^ 61 + 1) = AllocResult.block 8 ∧
    (8 : Nat) ≠ (2 ^ 61 + 1) * 8 := by
  refine ⟨by norm_num [size_t_MOD], ?_, ?_, by norm_num⟩
  · rw [show Allocate 8 (fun _ => true) (2 ^ 61 + 1) = AllocResult.block 8 from rfl]
    simp
  · rfl

/-- C2 amended: Allocate returns the empty block when n = 0; when n is
nonzero and n * sizeof(T) fits in size_t, it returns a block of exactly
n * sizeof(T) bytes provided the underlying allocator can satisfy the
request; when the allocator refuses, the failure propagates unmodified.
No overflow check exists: the byte count is reduced modulo 2 ^ 64. -/
theorem c2_allocate_amended (sizeofT : Nat) (allocOk : Nat → Bool) (n : Nat) :
    (n = 0 → Allocate sizeofT allocOk n = AllocResult.empty) ∧
    (n ≠ 0 → n * sizeofT < size_t_MOD → allocOk (n * sizeofT) = true →
      Allocate sizeofT allocOk n = AllocResult.block (n * sizeofT)) ∧
    (n ≠ 0 → allocOk (n * sizeofT % size_t_MOD) = false →
      Allocate sizeofT allocOk n = AllocResult.alloc_failure) := by
  refine ⟨?_, ?_, ?_⟩
  · intro h; simp [Allocate, h]
  · intro h hlt hok
    simp [Allocate, h, Nat.mod_eq_of_lt hlt, hok]
  · intro h hfail
    simp [Allocate, h, hfail]

/-- C2 witness: the amended theorem applied at concrete inputs. -/
theorem c2_allocate_amended_witness :
    Allocate 8 (fun _ => true) 0 = AllocResult.empty ∧
    Allocate 8 (fun _ => true) 3 = AllocResult.block 24 ∧
    Allocate 8 (fun _ => false) 3 = AllocResult.alloc_failure := by
  refine ⟨(c2_allocate_amended 8 (fun _ => true) 0).1 rfl, ?_, ?_⟩
  · exact (c2_allocate_amended 8 (fun _ => true) 3).2.1 (by decide)
      (by norm_num [size_t_MOD]) rfl
  · exact (c2_allocate_amended 8 (fun _ => false) 3).2.2 (by decide) rfl

/-- C4: for every sequence of appends from the default constructed vector,
the size after the k-th append is k, the element order equals the push
order, capacity never decreases at any append, growth to max 1 (size * 2)
happens exactly when size equals capacity, and the capacities after the
first three appends are 1, 2 and 4. -/
theorem c4_append_growth {α : Type} (l : List α) (x y z : α) :
    (pushAll l).elems = l ∧
    (pushAll l).elems.length = l.length ∧
    (∀ (s : VecState α) (v : α), s.cap ≤ (EmplaceBack s v).cap) ∧
    (∀ (s : VecState α) (v : α), (EmplaceBack s v).cap =
      if s.elems.length = s.cap then max 1 (s.elems.length * 2) else s.cap) ∧
    (pushAll [x]).cap = 1 ∧
    (pushAll [x, y]).cap = 2 ∧
    (pushAll [x, y, z]).cap = 4 := by
  refine ⟨pushAll_elems l, by rw [pushAll_elems], EmplaceBack_cap_mono,
    EmplaceBack_cap_eq, rfl, rfl, rfl⟩

/-- std::move_backward(first, last, d_last) over a buffer of constructed
values, by slot index: relocates slots [first, last) to the range of the
same length ending at d_last, processed back to front. The range is valid
only when first ≤ last and last ≤ d_last ≤ length; otherwise the call is
undefined behaviour, modelled as none. On the slots of the model, each
moved-from slot that is not rewritten keeps a moved-from value that the
caller overwrites before reading. -/
def moveBackwardIdx {α : Type} (b : List α) (first last d_last : Nat) :
    Option (List α) :=
  if first ≤ last ∧ last ≤ d_last ∧ d_last ≤ b.length then
    some (b.take (d_last - (last - first)) ++
          (b.drop first).take (last - first) ++ b.drop d_last)
  else none

/-- std::move(first, last, d_first) over a buffer of constructed values, by
slot index: relocates slots [first, last) to the range of the same length
starting at d_first, processed front to back; valid when d_first ≤ first
and first ≤ last ≤ length. -/
def moveForwardIdx {α : Type} (b : List α) (first last d_first : Nat) :
    Option (List α) :=
  if d_first ≤ first ∧ first ≤ last ∧ last ≤ b.length then
    some (b.take d_first ++ (b.drop first).take (last - first) ++
          b.drop (d_first + (last - first)))
  else none

/-- Vector::Emplace (lines 236 to 261), success semantics. When size_ ==
Capacity: allocate (size_ == 0 ? 1 : size_ * 2) slots, construct the new
element at slot index, FillBehindIndex relocates old slots [0, index) and
FillAfterIndex relocates old slots [index, size_) to [index + 1, size_ + 1),
destroy the old elements, adopt by Swap; the net sequence is the old one
with the value inserted at index. Otherwise, for a nonempty vector, the
value is materialized as a temporary, the last element is move-constructed
into slot size_, std::move_backward shifts slots [index, size_ - 1) to end
at slot size_, and the temporary is move-assigned into slot index; for an
empty vector the element is constructed at slot 0. The index is pos minus
the buffer address. -/
def Emplace {α : Type} (s : VecState α) (index : Nat) (v : α) :
    Option (VecState α) :=
  if s.elems.length = s.cap then
    if index ≤ s.elems.length then
      some { elems := s.elems.take index ++ v :: s.elems.drop index,
             cap := if s.elems.length = 0 then 1 else s.elems.length * 2 }
    else none
  else
    match s.elems.getLast? with
    | none => if index = 0 then some { elems := [v], cap := s.cap } else none
    | some lastElem =>
      match moveBackwardIdx (s.elems ++ [lastElem]) index
          (s.elems.length - 1) s.elems.length with
      | some b2 => some { elems := b2.set index v, cap := s.cap }
      | none => none

/-- Vector::Erase (lines 263 to 269): std::move shifts slots
[index + 1, size_) onto [index, size_ - 1), the last slot is destroyed and
size_ decremented. Valid only for index < size_. -/
def Erase {α : Type} (s : VecState α) (index : Nat) : Option (VecState α) :=
  if index < s.elems.length then
    match moveForwardIdx s.elems (index + 1) s.elems.length index with
    | some b2 => some { elems := b2.take (s.elems.length - 1), cap := s.cap }
    | none => none
  else none

/-- Vector::PopBack (lines 271 to 274): destroys the element in the last
live slot and decrements size_; undefined on an empty vector. -/
def PopBack {α : Type} (s : VecState α) : Option (VecState α) :=
  match s.elems.getLast? with
  | none => none
  | some _ => some { elems := s.elems.dropLast, cap := s.cap }

/-- Vector::Reserve (lines 179 to 188), success semantics: a no-op when
new_capacity ≤ Capacity; otherwise a block of exactly new_capacity slots is
allocated, FillNewData relocates all live elements in order, the old
elements are destroyed and the new block adopted by Swap. -/
def Reserve {α : Type} (s : VecState α) (new_capacity : Nat) : VecState α :=
  if new_capacity ≤ s.cap then s
  else { elems := s.elems, cap := new_capacity }

/-- Vector::Resize (lines 190 to 202): shrinking destroys the trailing
elements; growing reserves and value-constructs the new trailing slots,
each holding the default value d. -/
def Resize {α : Type} (s : VecState α) (d : α) (new_size : Nat) :
    VecState α :=
  if new_size ≤ s.elems.length then
    { elems := s.elems.take new_size, cap := s.cap }
  else
    { elems := (Reserve s new_size).elems ++
        List.replicate (new_size - s.elems.length) d,
      cap := (Reserve s new_size).cap }

/-- Vector::Swap (lines 309 to 312): exchanges the RawMemory blocks and the
sizes of the two vectors. -/
def SwapOp {α : Type} (a b : VecState α) : VecState α × VecState α := (b, a)

/-- C3: with spare capacity, inserting 99 at index 1 of the sequence
1, 2, 3 yields 1, 99, 2, 3 and erasing at index 1 restores 1, 2, 3, as the
claim states for interior positions; but at the boundary position
p = size, which the claim also covers, Emplace on the capacity-sufficient
path calls std::move_backward(begin() + size_, end() - 1, end()), an
invalid range with first past last - undefined behaviour, returning none in
the model - so the claim fails at p = size. -/
theorem c3_insert_erase_roundtrip_and_end_bug :
    Emplace { elems := [1, 2, 3], cap := 4 } 1 (99 : Nat) =
      some { elems := [1, 99, 2, 3], cap := 4 } ∧
    Erase { elems := [1, 99, 2, 3], cap := 4 } 1 =
      some { elems := [1, 2, 3], cap := (4 : Nat) } ∧
    Emplace { elems := [1], cap := 2 } 1 (99 : Nat) = none := by
  refine ⟨?_, ?_, ?_⟩ <;> decide

/-- The assignment loop for(i = 0; i < k; ++i) data_[i] = rhs[i] of
operator=(const Vector&): slot i receives the i-th source element for
every i < k, the remaining slots keep their old values. -/
def assignPrefix {α : Type} (dst src : List α) (k : Nat) : List α :=
  src.take k ++ dst.drop k

/-- Vector::operator=(const Vector&) (lines 129 to 153), success semantics,
for distinct objects. If rhs.size_ > Capacity: a full copy of rhs is built
by the copy constructor (capacity = rhs.size_) and swapped in. Otherwise
existing storage is reused: when rhs.size_ ≥ size_, the overlapping prefix
is copy-assigned and the suffix copy-constructed by uninitialized_copy_n;
when rhs is shorter, the prefix of length rhs.size_ is copy-assigned and
the excess trailing elements destroyed. Size becomes rhs.size_. -/
def copyAssign {α : Type} (dst src : VecState α) : VecState α :=
  if src.elems.length > dst.cap then
    { elems := src.elems, cap := src.elems.length }
  else
    if src.elems.length ≥ dst.elems.length then
      { elems := assignPrefix dst.elems src.elems dst.elems.length ++
          src.elems.drop dst.elems.length,
        cap := dst.cap }
    else
      { elems := (assignPrefix dst.elems src.elems src.elems.length).take
          src.elems.length,
        cap := dst.cap }

theorem copyAssign_elems {α : Type} (dst src : VecState α) :
    (copyAssign dst src).elems = src.elems := by
  unfold copyAssign assignPrefix
  split
  · rfl
  · next hcap =>
      split
      · next hge =>
          simp only []
          rw [List.drop_eq_nil_of_le (le_refl dst.elems.length),
            List.append_nil, List.take_append_drop]
      · next hlt =>
          simp only []
          rw [List.take_length, List.take_append_of_le_length (Nat.le_refl _),
            List.take_length]

theorem copyAssign_cap {α : Type} (dst src : VecState α) :
    (copyAssign dst src).cap =
      if src.elems.length > dst.cap then src.elems.length else dst.cap := by
  unfold copyAssign
  split
  · rfl
  · split <;> rfl

/-- C6: copy-assignment always ends with the element sequence and size of
the source; the capacity becomes the source size exactly in the
copy-and-swap case (source longer than capacity) and is kept otherwise,
where the existing storage is reused as described by the two-case rule
embedded in copyAssign. -/
theorem c6_copy_assign (α : Type) (dst src : VecState α) :
    (copyAssign dst src).elems = src.elems ∧
    (copyAssign dst src).elems.length = src.elems.length ∧
    (src.elems.length > dst.cap →
      (copyAssign dst src).cap = src.elems.length) ∧
    (src.elems.length ≤ dst.cap → (copyAssign dst src).cap = dst.cap) := by
  refine ⟨copyAssign_elems dst src, by rw [copyAssign_elems], ?_, ?_⟩
  · intro h; rw [copyAssign_cap, if_pos h]
  · intro h; rw [copyAssign_cap, if_neg (by omega)]

/-- C6 witness: the theorem applied at concrete inputs that discharge both
capacity hypotheses. -/
theorem c6_copy_assign_witness :
    (copyAssign { elems := [7], cap := 1 } { elems := [1, 2, 3], cap := 3 }).cap
      = 3 ∧
    (copyAssign { elems := [7, 8], cap := 4 }
      { elems := [1, 2, 3], cap := 3 }).cap = 4 := by
  constructor
  · exact (c6_copy_assign Nat { elems := [7], cap := 1 }
      { elems := [1, 2, 3], cap := 3 }).2.2.1 (by decide)
  · exact (c6_copy_assign Nat { elems := [7, 8], cap := 4 }
      { elems := [1, 2, 3], cap := 3 }).2.2.2 (by decide)

/-- Primitive steps a Vector operation can perform, at the granularity
needed to observe element-level work: releasing a raw block, exchanging
buffer pointers and capacities, writing a size field, copy-constructing an
element, destroying an element. -/
inductive PrimStep (α : Type) where
  | deallocBlock
  | swapBuffers
  | writeSize (n : Nat)
  | copyConstructElem (a : α)
  | destroyElem (a : α)
  deriving Repr, DecidableEq

/-- Whether a primitive step copies or destroys an element. -/
def isElemCopyOrDestroy {α : Type} : PrimStep α → Bool
  | .copyConstructElem _ => true
  | .destroyElem _ => true
  | _ => false

/-- Vector(Vector&&) (lines 155 to 159): data_(std::move(other.data_))
steals the buffer and capacity, leaving other with a null block of
capacity 0; size_ is copied from other and other.size_ set to 0. Result:
(destination, moved-from source). -/
def moveCtorPair {α : Type} (src : VecState α) : VecState α × VecState α :=
  ({ elems := src.elems, cap := src.cap }, { elems := [], cap := 0 })

/-- The primitive steps performed by Vector(Vector&&): only the RawMemory
pointer transfer and the two size writes; traced from lines 23 to 28 and
155 to 159. -/
def moveCtorTrace {α : Type} (src : VecState α) : List (PrimStep α) :=
  [.swapBuffers, .writeSize src.elems.length, .writeSize 0]

/-- Vector::operator=(Vector&&) (lines 161 to 169) for distinct objects:
data_ = std::move(rhs.data_) calls RawMemory::operator=(RawMemory&&)
(lines 30 to 38), which deallocates the own block without destroying the
elements inside it and swaps in the block of rhs, leaving rhs with a null
block of capacity 0; then size_ = rhs.size_ and rhs.size_ = 0. Result:
(destination, moved-from source). -/
def moveAssignPair {α : Type} (dst src : VecState α) :
    VecState α × VecState α :=
  ({ elems := src.elems, cap := src.cap }, { elems := [], cap := 0 })

/-- The primitive steps performed by Vector::operator=(Vector&&): the
deallocation of the own block, the pointer swap, and the two size writes;
no element is copy-constructed or destroyed (the old elements of the
destination are abandoned inside the released block). -/
def moveAssignTrace {α : Type} (dst src : VecState α) : List (PrimStep α) :=
  [.deallocBlock, .swapBuffers, .writeSize src.elems.length, .writeSize 0]

/-- C8: after move-construction or move-assignment the moved-from vector
has size 0 with an empty block, the destination holds exactly the original
elements of the source in their original order with the original capacity,
and the traces of both operations contain no element copy and no element
destruction. -/
theorem c8_move_transfer (α : Type) (dst src : VecState α) :
    (moveCtorPair src).1.elems = src.elems ∧
    (moveCtorPair src).1.cap = src.cap ∧
    (moveCtorPair src).2.elems.length = 0 ∧
    (moveAssignPair dst src).1.elems = src.elems ∧
    (moveAssignPair dst src).1.cap = src.cap ∧
    (moveAssignPair dst src).2.elems.length = 0 ∧
    (moveCtorTrace src).all (fun p => !isElemCopyOrDestroy p) = true ∧
    (moveAssignTrace dst src).all (fun p => !isElemCopyOrDestroy p) = true := by
  refine ⟨rfl, rfl, rfl, rfl, rfl, rfl, rfl, rfl⟩

/-- Vector::operator=(const Vector&) including the self-assignment guard
if(this != &rhs) at line 130: when rhs is the same object nothing is done,
otherwise the two-case copy assignment body runs. -/
def copyAssignOp {α : Type} (self_is_rhs : Bool) (dst src : VecState α) :
    VecState α :=
  if self_is_rhs then dst else copyAssign dst src

/-- Vector::operator=(Vector&&) including the self-assignment guard
if(this != &rhs) at line 162: when rhs is the same object nothing is done,
otherwise the ownership transfer runs. -/
def moveAssignOp {α : Type} (self_is_rhs : Bool) (dst src : VecState α) :
    VecState α × VecState α :=
  if self_is_rhs then (dst, src) else moveAssignPair dst src

/-- C10: self-assignment is a no-op: both copy-assignment and
move-assignment of a vector to itself leave its elements, size and
capacity unchanged, by the identity guard. -/
theorem c10_self_assignment (α : Type) (v : VecState α) :
    copyAssignOp true v v = v ∧
    (copyAssignOp true v v).elems = v.elems ∧
    (copyAssignOp true v v).cap = v.cap ∧
    moveAssignOp true v v = (v, v) ∧
    (moveAssignOp true v v).1.elems = v.elems ∧
    (moveAssignOp true v v).1.cap = v.cap := by
  refine ⟨rfl, rfl, rfl, rfl, rfl, rfl⟩

/-- Compile-time capabilities of the element type T that the source
queries: std::is_nothrow_move_constructible_v and
std::is_copy_constructible_v. -/
structure ElemTraits where
  nothrowMoveConstructible : Bool
  copyConstructible : Bool
  deriving Repr, DecidableEq

/-- The branch condition of Vector::FillNewData (lines 320 to 326):
if constexpr is_nothrow_move_constructible or not copy_constructible then
uninitialized_move_n else uninitialized_copy_n. -/
def fillNewDataUsesMove (t : ElemTraits) : Bool :=
  t.nothrowMoveConstructible || !t.copyConstructible

/-- The identical branch condition written out again in the constructor
Vector(std::initializer_list) at line 115. Taking this branch does not
mean an element is actually moved there: see initListElemCtor. -/
def initListCtorTakesMoveBranch (t : ElemTraits) : Bool :=
  t.nothrowMoveConstructible || !t.copyConstructible

/-- Relocation decision of Reserve: Reserve calls FillNewData
(line 185). -/
def reserveRelocUsesMove (t : ElemTraits) : Bool := fillNewDataUsesMove t

/-- Relocation decision of the growth branch of Resize: Resize calls
Reserve (line 198). -/
def resizeGrowthRelocUsesMove (t : ElemTraits) : Bool :=
  reserveRelocUsesMove t

/-- Relocation decision of the reallocating branch of EmplaceBack:
EmplaceBack calls FillNewData (line 224). -/
def emplaceBackRelocUsesMove (t : ElemTraits) : Bool := fillNewDataUsesMove t

/-- Relocation decision of the reallocating branch of Emplace: Emplace
calls FillBehindIndex and FillAfterIndex (lines 243 to 244), both of which
call FillNewData. -/
def emplaceRelocUsesMove (t : ElemTraits) : Bool := fillNewDataUsesMove t

/-- Modelled from the spec wording, for comparison with the source
conditions: move the element if moving is guaranteed not to fail, or if
the element cannot be duplicated at all; otherwise duplicate it. -/
def specMoveIfCannotFailElseCopy (t : ElemTraits) : Bool :=
  t.nothrowMoveConstructible || !t.copyConstructible

/-- The constructor overload a bulk fill primitive selects for each
element it constructs: the move constructor, the copy constructor, or no
viable constructor at all, in which case the program is ill-formed and
rejected at compile time. -/
inductive ElemCtor where
  | moveCtor
  | copyCtor
  | illFormed
  deriving Repr, DecidableEq

/-- Constructor selected by Vector::FillNewData (lines 320 to 326). Its
source range is the own buffer data_.GetAddress(), of type T* (non
const), so in the move branch std::uninitialized_move_n binds T&& and
really selects the move constructor; the copy branch selects the copy
constructor. -/
def fillNewDataElemCtor (t : ElemTraits) : ElemCtor :=
  if fillNewDataUsesMove t then .moveCtor else .copyCtor

/-- Constructor selected by Vector(std::initializer_list) (lines 111 to
120). Its move branch runs std::uninitialized_move_n(list.begin(), ...),
and std::initializer_list gives only const T* iterators: std::move on a
const T lvalue yields const T&&, which cannot bind to T(T&&), so overload
resolution selects the copy constructor when one exists and otherwise
finds no viable constructor, making the construction ill-formed. The copy
branch selects the copy constructor. -/
def initListElemCtor (t : ElemTraits) : ElemCtor :=
  if initListCtorTakesMoveBranch t then
    if t.copyConstructible then .copyCtor else .illFormed
  else .copyCtor

/-- Modelled from the spec wording, for comparison with the constructors
the source selects: relocate by the move constructor exactly when the
move cannot fail or the element cannot be duplicated at all, otherwise
duplicate by the copy constructor. -/
def specRelocCtor (t : ElemTraits) : ElemCtor :=
  if specMoveIfCannotFailElseCopy t then .moveCtor else .copyCtor

/-- C5 is violated on the value-list construction path. For every trait
combination, the relocation paths that run over the own T* buffer
(Reserve, Resize growth, EmplaceBack reallocation, Emplace reallocation)
select constructors by exactly the spec rule. But the initializer-list
constructor never moves: for a nothrow-move-constructible and
copy-constructible element type its move branch still selects the copy
constructor, and for a non-copyable type it selects no constructor at
all and the program is ill-formed, where the claim requires a move in
both cases. -/
theorem c5_init_list_move_branch_copies :
    (∀ t : ElemTraits, fillNewDataElemCtor t = specRelocCtor t) ∧
    (∀ t : ElemTraits,
      reserveRelocUsesMove t = specMoveIfCannotFailElseCopy t ∧
      resizeGrowthRelocUsesMove t = specMoveIfCannotFailElseCopy t ∧
      emplaceBackRelocUsesMove t = specMoveIfCannotFailElseCopy t ∧
      emplaceRelocUsesMove t = specMoveIfCannotFailElseCopy t) ∧
    initListElemCtor ⟨true, true⟩ = ElemCtor.copyCtor ∧
    specRelocCtor ⟨true, true⟩ = ElemCtor.moveCtor ∧
    initListElemCtor ⟨true, false⟩ = ElemCtor.illFormed ∧
    initListElemCtor ⟨false, false⟩ = ElemCtor.illFormed ∧
    specRelocCtor ⟨true, false⟩ = ElemCtor.moveCtor ∧
    specRelocCtor ⟨false, false⟩ = ElemCtor.moveCtor ∧
    (∀ t : ElemTraits, initListElemCtor t ≠ ElemCtor.moveCtor) := by
  refine ⟨?_, ?_, by decide, by decide, by decide, by decide, by decide,
    by decide, ?_⟩
  · intro t
    cases t with
    | mk m c => cases m <;> cases c <;> decide
  · intro t
    exact ⟨rfl, rfl, rfl, rfl⟩
  · intro t
    cases t with
    | mk m c => cases m <;> cases c <;> decide

/-- std::uninitialized_copy_n over a source range: copies element by
element; if a copy constructor throws, every element already constructed
by the call is destroyed before the failure is rethrown, so on failure
nothing remains constructed in the destination. The parameter fails tells
which element values throw on copy; none models the propagated failure. -/
def uninitCopyN {α : Type} (fails : α → Bool) : List α → Option (List α)
  | [] => some []
  | a :: rest =>
      if fails a then none else (uninitCopyN fails rest).map (a :: ·)

/-- Vector::FillNewData (lines 320 to 326) with failure tracking: the move
branch uses uninitialized_move_n, taken only when the move constructor is
nothrow, so it cannot fail; the copy branch uses uninitialized_copy_n and
fails whenever some element fails to copy. -/
def FillNewDataRun {α : Type} (t : ElemTraits) (fails : α → Bool)
    (src : List α) : Option (List α) :=
  if fillNewDataUsesMove t then some src else uninitCopyN fails src

theorem uninitCopyN_of_all_ok {α : Type} (fails : α → Bool) (l : List α)
    (h : ∀ a ∈ l, fails a = false) : uninitCopyN fails l = some l := by
  induction l with
  | nil => rfl
  | cons a rest ih =>
      have ha : fails a = false := h a (List.mem_cons_self a rest)
      have hrest := ih (fun b hb => h b (List.mem_cons_of_mem a hb))
      simp [uninitCopyN, ha, hrest]

theorem uninitCopyN_of_some_fail {α : Type} (fails : α → Bool) (l : List α)
    (h : ∃ a ∈ l, fails a = true) : uninitCopyN fails l = none := by
  induction l with
  | nil => simp at h
  | cons a rest ih =>
      rcases h with ⟨b, hb, hfb⟩
      rcases List.mem_cons.mp hb with hba | hbr
      · subst hba; simp [uninitCopyN, hfb]
      · by_cases ha : fails a = true
        · simp [uninitCopyN, ha]
        · have hrest := ih ⟨b, hbr, hfb⟩
          simp [uninitCopyN, ha, hrest]

/-- Vector::Reserve (lines 179 to 188) with failure tracking: when
new_capacity ≤ Capacity it returns at once; otherwise a RawMemory block of
new_capacity slots is allocated and FillNewData relocates the elements.
When FillNewData throws, uninitialized_copy_n has already destroyed what
it constructed, the destructor of the local RawMemory releases the new
block, and the failure propagates before destroy_n or Swap run, so the
container keeps its state: Except.error carries the state the caller
observes after unwinding. -/
def ReserveF {α : Type} (t : ElemTraits) (fails : α → Bool)
    (s : VecState α) (new_capacity : Nat) :
    Except (VecState α) (VecState α) :=
  if new_capacity ≤ s.cap then .ok s
  else
    match FillNewDataRun t fails s.elems with
    | some relocated => .ok { elems := relocated, cap := new_capacity }
    | none => .error s

/-- C7: Reserve with n ≤ capacity is a no-op; with n > capacity it adopts
storage of exactly n slots with all elements relocated in order; when the
duplication branch is taken and some element fails to duplicate, the
failure propagates and the original container is unchanged (already
constructed duplicates and the new block having been rolled back inside
the model of uninitialized_copy_n). -/
theorem c7_reserve_strong_guarantee {α : Type} (t : ElemTraits)
    (fails : α → Bool) (s : VecState α) (n : Nat) :
    (n ≤ s.cap → ReserveF t fails s n = .ok s) ∧
    (s.cap < n → (∀ a ∈ s.elems, fails a = false) →
      ReserveF t fails s n = .ok { elems := s.elems, cap := n }) ∧
    (s.cap < n → fillNewDataUsesMove t = false →
      (∃ a ∈ s.elems, fails a = true) →
      ReserveF t fails s n = .error s) := by
  refine ⟨?_, ?_, ?_⟩
  · intro h; simp [ReserveF, h]
  · intro hlt hok
    have hnle : ¬ n ≤ s.cap := by omega
    unfold ReserveF FillNewDataRun
    rw [if_neg hnle]
    by_cases hm : fillNewDataUsesMove t
    · simp [hm]
    · simp [hm, uninitCopyN_of_all_ok fails s.elems hok]
  · intro hlt hcopy hfail
    have hnle : ¬ n ≤ s.cap := by omega
    unfold ReserveF FillNewDataRun
    rw [if_neg hnle]
    simp [hcopy, uninitCopyN_of_some_fail fails s.elems hfail]

/-- C7 witness: the theorem applied at concrete inputs discharging all
three groups of hypotheses: a no-op reserve, a successful growing reserve,
and a growing reserve on the duplication path where one element fails. -/
theorem c7_reserve_strong_guarantee_witness :
    ReserveF ⟨false, true⟩ (fun a => a == 0) { elems := [1, 2], cap := 4 } 3 =
      .ok { elems := [1, 2], cap := 4 } ∧
    ReserveF ⟨false, true⟩ (fun a => a == 0) { elems := [1, 2], cap := 2 } 5 =
      .ok { elems := [1, 2], cap := 5 } ∧
    ReserveF ⟨false, true⟩ (fun a => a == 0) { elems := [1, 0], cap := 2 } 5 =
      .error { elems := [1, 0], cap := 2 } := by
  refine ⟨?_, ?_, ?_⟩
  · exact (c7_reserve_strong_guarantee ⟨false, true⟩ (fun a => a == 0)
      { elems := [1, 2], cap := 4 } 3).1 (by decide)
  · exact (c7_reserve_strong_guarantee ⟨false, true⟩ (fun a => a == 0)
      { elems := [1, 2], cap := 2 } 5).2.1 (by decide) (by decide)
  · exact (c7_reserve_strong_guarantee ⟨false, true⟩ (fun a => a == 0)
      { elems := [1, 0], cap := 2 } 5).2.2 (by decide) (by decide)
      ⟨0, by decide, by decide⟩

/-- Writes constructed values into consecutive slots of a raw buffer,
starting at position p; a slot holds some value when a constructed element
lives in it and none when it is raw memory. -/
def writeSlots {α : Type} (slots : List (Option α)) (p : Nat)
    (xs : List α) : List (Option α) :=
  slots.take p ++ xs.map some ++ slots.drop (p + xs.length)

/-- Outcome of the reallocating branch of Vector::Emplace: whether a
failure reached the caller, the final slots of the adopted buffer, its
capacity, and the final size_. -/
structure ReallocOutcome (α : Type) where
  propagated : Bool
  slots : List (Option α)
  cap : Nat
  size : Nat
  deriving Repr, DecidableEq

/-- The reallocating branch of Vector::Emplace (lines 240 to 246) on the
duplication path, slot by slot, with fallible element copies. A new block
of (size_ == 0 ? 1 : size_ * 2) raw slots is allocated and the new element
constructed at slot index. FillBehindIndex (lines 328 to 334) runs
uninitialized_copy_n on the old slots [0, index); on failure the catch
block destroys the element at slot index and does not rethrow, so
execution continues. FillAfterIndex (lines 336 to 344) runs
uninitialized_copy_n of the old slots [index, size_) into slots
[index + 1, size_ + 1); on failure the catch block destroys slots
[0, index] and does not rethrow. Then destroy_n destroys all old elements,
the new block is adopted by Swap and size_ is incremented. No path sets
propagated. -/
def emplaceReallocCopy {α : Type} (fails : α → Bool) (old : List α)
    (index : Nat) (v : α) : ReallocOutcome α :=
  let size := old.length
  let newCap := if size = 0 then 1 else size * 2
  let s0 : List (Option α) := List.replicate newCap none
  let s1 := s0.set index (some v)
  let s2 := match uninitCopyN fails (old.take index) with
    | some front => writeSlots s1 0 front
    | none => s1.set index none
  let s3 := match uninitCopyN fails (old.drop index) with
    | some back => writeSlots s2 (index + 1) back
    | none => (List.range (index + 1)).foldl (fun s i => s.set i none) s2
  { propagated := false, slots := s3, cap := newCap, size := size + 1 }

/-- C1 is violated: insert 99 at index 1 of the full vector holding 0, 5
where copying the element 0 throws. The copy failure inside
FillBehindIndex is caught and swallowed, FillAfterIndex then copies 5 into
slot 2, the original elements are destroyed and the new block adopted, so
no failure reaches the caller, the original container is destroyed rather
than intact, and the adopted buffer of the size 3 vector has constructed
elements only in slot 2 - slots 0 and 1 are raw memory inside the live
range. -/
theorem c1_emplace_realloc_failure_swallowed :
    emplaceReallocCopy (fun a => a == 0) [0, 5] 1 99 =
      { propagated := false, slots := [none, none, some 5, none],
        cap := 4, size := 3 } ∧
    (emplaceReallocCopy (fun a => a == 0) [0, 5] 1 99).propagated = false ∧
    (emplaceReallocCopy (fun a => a == 0) [0, 5] 1 99).slots.take 2 =
      [none, none] ∧
    2 < (emplaceReallocCopy (fun a => a == 0) [0, 5] 1 99).size := by
  refine ⟨by decide, by decide, by decide, by decide⟩

/-- C9 is violated: the invariant that slots [0, size) hold live
constructed values is not preserved by every public operation. Emplace on
the reallocating duplication path, when copying the element at slot 0
throws, returns normally to the caller (the failure was swallowed inside
FillBehindIndex) with size_ incremented to 3, while slots 0 and 1 of the
adopted buffer, inside the live range [0, size), hold no constructed
element. The size ≤ capacity half of the invariant does hold in the final
state. -/
theorem c9_invariant_violated_on_swallowed_failure :
    (emplaceReallocCopy (fun a => a == 0) [0, 5] 1 99).propagated = false ∧
    (emplaceReallocCopy (fun a => a == 0) [0, 5] 1 99).size = 3 ∧
    (emplaceReallocCopy (fun a => a == 0) [0, 5] 1 99).slots[0]? =
      some none ∧
    (emplaceReallocCopy (fun a => a == 0) [0, 5] 1 99).slots[1]? =
      some none ∧
    (emplaceReallocCopy (fun a => a == 0) [0, 5] 1 99).size ≤
      (emplaceReallocCopy (fun a => a == 0) [0, 5] 1 99).cap := by
  refine ⟨by decide, by decide, by decide, by decide, by decide⟩

theorem moveBackwardIdx_length {α : Type} {b : List α} {f l d : Nat}
    {b2 : List α} (h : moveBackwardIdx b f l d = some b2) :
    b2.length = b.length := by
  unfold moveBackwardIdx at h
  split at h
  · next hc =>
      injection h with h
      subst h
      simp only [List.length_append, List.length_take, List.length_drop]
      omega
  · exact absurd h (by simp)

theorem Erase_some_facts {α : Type} {s : VecState α} {i : Nat}
    {s' : VecState α} (h : Erase s i = some s') :
    s'.elems = s.elems.take i ++ s.elems.drop (i + 1) ∧ s'.cap = s.cap ∧
    s'.elems.length + 1 = s.elems.length ∧ i < s.elems.length := by
  unfold Erase moveForwardIdx at h
  by_cases hi : i < s.elems.length
  swap
  · rw [if_neg hi] at h; exact absurd h (by simp)
  rw [if_pos hi,
    if_pos (⟨Nat.le_succ i, hi, Nat.le_refl _⟩ :
      i ≤ i + 1 ∧ i + 1 ≤ s.elems.length ∧
        s.elems.length ≤ s.elems.length)] at h
  injection h with h
  subst h
  have hA : (s.elems.drop (i + 1)).take (s.elems.length - (i + 1)) =
      s.elems.drop (i + 1) := List.take_of_length_le (by simp)
  have hB : i + (s.elems.length - (i + 1)) = s.elems.length - 1 := by omega
  have hC : (s.elems.take i ++
      (s.elems.drop (i + 1)).take (s.elems.length - (i + 1)) ++
      s.elems.drop (i + (s.elems.length - (i + 1)))).take
        (s.elems.length - 1) =
      s.elems.take i ++ s.elems.drop (i + 1) := by
    rw [hA, hB, List.take_append_of_le_length (by simp; omega)]
    exact List.take_of_length_le (by simp; omega)
  refine ⟨hC, rfl, ?_, hi⟩
  simp only [List.length_take, List.length_append, List.length_drop]
  omega

theorem Emplace_some_facts {α : Type} {s : VecState α} {i : Nat} {v : α}
    {s' : VecState α} (hInv : Inv s) (h : Emplace s i v = some s') :
    s'.elems.length = s.elems.length + 1 ∧ s.cap ≤ s'.cap ∧ Inv s' := by
  unfold Emplace at h
  split at h
  · next hfull =>
      split at h
      · next hile =>
          injection h with h
          subst h
          unfold Inv
          simp only [List.length_append, List.length_take, List.length_cons,
            List.length_drop]
          constructor
          · omega
          · split <;> omega
      · exact absurd h (by simp)
  · next hne =>
      split at h
      · next hL =>
          have hnil : s.elems = [] := by
            cases he : s.elems with
            | nil => rfl
            | cons a t => rw [he] at hL; simp at hL
          split at h
          · next hi0 =>
              injection h with h
              subst h
              refine ⟨by simp [hnil], Nat.le_refl _, ?_⟩
              unfold Inv
              rw [hnil] at hne
              simp only [List.length_nil, List.length_cons] at hne ⊢
              omega
          · exact absurd h (by simp)
      · next lastElem hL =>
          cases hM : moveBackwardIdx (s.elems ++ [lastElem]) i
              (s.elems.length - 1) s.elems.length with
          | none => rw [hM] at h; exact absurd h (by simp)
          | some b2 =>
              rw [hM] at h
              injection h with h
              subst h
              have hlen : b2.length = s.elems.length + 1 := by
                rw [moveBackwardIdx_length hM]; simp
              unfold Inv at hInv
              refine ⟨?_, Nat.le_refl _, ?_⟩
              · simp only [List.length_set, hlen]
              · unfold Inv
                simp only [List.length_set, hlen]
                omega

theorem PopBack_some_facts {α : Type} {s : VecState α} {s' : VecState α}
    (h : PopBack s = some s') :
    s'.elems = s.elems.dropLast ∧ s'.cap = s.cap ∧
    s'.elems.length + 1 = s.elems.length := by
  unfold PopBack at h
  split at h
  · exact absurd h (by simp)
  · next a hL =>
      injection h with h
      subst h
      have hne : s.elems ≠ [] := by
        intro he; rw [he] at hL; simp at hL
      refine ⟨rfl, rfl, ?_⟩
      simp only [List.length_dropLast]
      have := List.length_pos.mpr hne
      omega

/-- Supporting result in success semantics (no element operation throws):
the public operations preserve size ≤ capacity; Erase and PopBack each
reduce the size by exactly 1 and keep the remaining elements in their
relative order; and none of the element-level mutators shrinks the
capacity. The failure path of Emplace violates the invariant, which is
why the spec invariant claim does not hold of the program; see the
theorem on the swallowed Emplace failure. -/
theorem successSemantics_invariants (α : Type) :
    (∀ (s : VecState α) (v : α), Inv s → Inv (EmplaceBack s v)) ∧
    (∀ (s : VecState α) (v : α), s.cap ≤ (EmplaceBack s v).cap) ∧
    (∀ (s : VecState α) (v : α),
      (EmplaceBack s v).elems.length = s.elems.length + 1) ∧
    (∀ (s : VecState α) (i : Nat) (v : α) (s' : VecState α), Inv s →
      Emplace s i v = some s' →
      Inv s' ∧ s.cap ≤ s'.cap ∧ s'.elems.length = s.elems.length + 1) ∧
    (∀ (s : VecState α) (i : Nat) (s' : VecState α), Inv s →
      Erase s i = some s' →
      Inv s' ∧ s'.elems.length + 1 = s.elems.length ∧
      s'.elems = s.elems.take i ++ s.elems.drop (i + 1) ∧
      s'.cap = s.cap) ∧
    (∀ (s s' : VecState α), Inv s → PopBack s = some s' →
      Inv s' ∧ s'.elems.length + 1 = s.elems.length ∧
      s'.elems = s.elems.dropLast ∧ s'.cap = s.cap) ∧
    (∀ (s : VecState α) (n : Nat), Inv s →
      Inv (Reserve s n) ∧ s.cap ≤ (Reserve s n).cap) ∧
    (∀ (s : VecState α) (d : α) (n : Nat), Inv s →
      Inv (Resize s d n) ∧ s.cap ≤ (Resize s d n).cap) ∧
    (∀ (dst src : VecState α), Inv (copyAssign dst src)) ∧
    (∀ (dst src : VecState α), Inv src →
      Inv (moveAssignPair dst src).1 ∧ Inv (moveAssignPair dst src).2) ∧
    (∀ (a b : VecState α), Inv a → Inv b →
      Inv (SwapOp a b).1 ∧ Inv (SwapOp a b).2) := by
  refine ⟨?_, EmplaceBack_cap_mono, ?_, ?_, ?_, ?_, ?_, ?_, ?_, ?_, ?_⟩
  · intro s v hInv
    unfold Inv EmplaceBack at *
    split
    · next heq =>
        simp only [List.length_append, List.length_cons, List.length_nil]
        split <;> omega
    · next hne =>
        simp only [List.length_append, List.length_cons, List.length_nil]
        omega
  · intro s v
    rw [EmplaceBack_elems]
    simp
  · intro s i v s' hInv h
    obtain ⟨h1, h2, h3⟩ := Emplace_some_facts hInv h
    exact ⟨h3, h2, h1⟩
  · intro s i s' hInv h
    obtain ⟨h1, h2, h3, h4⟩ := Erase_some_facts h
    refine ⟨?_, h3, h1, h2⟩
    unfold Inv at hInv ⊢
    omega
  · intro s s' hInv h
    obtain ⟨h1, h2, h3⟩ := PopBack_some_facts h
    refine ⟨?_, h3, h1, h2⟩
    unfold Inv at hInv ⊢
    omega
  · intro s n hInv
    unfold Inv Reserve at *
    split
    · exact ⟨hInv, Nat.le_refl _⟩
    · next hn =>
        exact ⟨show s.elems.length ≤ n by omega, show s.cap ≤ n by omega⟩
  · intro s d n hInv
    unfold Inv Resize Reserve at *
    split
    · next hle =>
        simp only [List.length_take]
        exact ⟨by omega, Nat.le_refl _⟩
    · next hgt =>
        split
        · next hn =>
            simp only [List.length_append, List.length_replicate]
            exact ⟨by omega, by omega⟩
        · next hn =>
            simp only [List.length_append, List.length_replicate]
            exact ⟨by omega, by omega⟩
  · intro dst src
    unfold Inv
    rw [copyAssign_elems, copyAssign_cap]
    split <;> omega
  · intro dst src hInv
    unfold Inv at *
    exact ⟨hInv, by simp [moveAssignPair]⟩
  · intro a b hInva hInvb
    exact ⟨hInvb, hInva⟩

/-- Concrete check of every component of the success-semantics result,
discharging all invariant, Erase, PopBack and Emplace hypotheses. -/
theorem successSemantics_invariants_witness :
    Inv (EmplaceBack { elems := [1], cap := 2 } (9 : Nat)) ∧
    (Inv ({ elems := [1, 9, 2], cap := 4 } : VecState Nat) ∧
      ({ elems := [1, 2], cap := 4 } : VecState Nat).cap ≤
        ({ elems := [1, 9, 2], cap := 4 } : VecState Nat).cap ∧
      ({ elems := [1, 9, 2], cap := 4 } : VecState Nat).elems.length =
        ({ elems := [1, 2], cap := 4 } : VecState Nat).elems.length + 1) ∧
    (Inv ({ elems := [1, 3], cap := 4 } : VecState Nat) ∧
      ({ elems := [1, 3], cap := 4 } : VecState Nat).elems.length + 1 =
        ({ elems := [1, 2, 3], cap := 4 } : VecState Nat).elems.length ∧
      ({ elems := [1, 3], cap := 4 } : VecState Nat).elems =
        ({ elems := [1, 2, 3], cap := 4 } : VecState Nat).elems.take 1 ++
        ({ elems := [1, 2, 3], cap := 4 } : VecState Nat).elems.drop 2 ∧
      ({ elems := [1, 3], cap := 4 } : VecState Nat).cap =
        ({ elems := [1, 2, 3], cap := 4 } : VecState Nat).cap) ∧
    (Inv ({ elems := [1], cap := 3 } : VecState Nat) ∧
      ({ elems := [1], cap := 3 } : VecState Nat).elems.length + 1 =
        ({ elems := [1, 2], cap := 3 } : VecState Nat).elems.length ∧
      ({ elems := [1], cap := 3 } : VecState Nat).elems =
        ({ elems := [1, 2], cap := 3 } : VecState Nat).elems.dropLast ∧
      ({ elems := [1], cap := 3 } : VecState Nat).cap =
        ({ elems := [1, 2], cap := 3 } : VecState Nat).cap) ∧
    (Inv (Reserve { elems := [1], cap := 1 } 5) ∧
      ({ elems := [1], cap := 1 } : VecState Nat).cap ≤
        (Reserve { elems := [1], cap := 1 } 5).cap) ∧
    (Inv (Resize { elems := [1, 2], cap := 2 } (0 : Nat) 4) ∧
      ({ elems := [1, 2], cap := 2 } : VecState Nat).cap ≤
        (Resize { elems := [1, 2], cap := 2 } (0 : Nat) 4).cap) ∧
    (Inv (moveAssignPair { elems := [9], cap := 1 }
        ({ elems := [1, 2], cap := 3 } : VecState Nat)).1 ∧
      Inv (moveAssignPair { elems := [9], cap := 1 }
        ({ elems := [1, 2], cap := 3 } : VecState Nat)).2) ∧
    (Inv (SwapOp { elems := [1], cap := 2 }
        ({ elems := [2, 3], cap := 5 } : VecState Nat)).1 ∧
      Inv (SwapOp { elems := [1], cap := 2 }
        ({ elems := [2, 3], cap := 5 } : VecState Nat)).2) := by
  refine ⟨?_, ?_, ?_, ?_, ?_, ?_, ?_, ?_⟩
  · exact (successSemantics_invariants Nat).1 { elems := [1], cap := 2 } 9 (by decide)
  · exact (successSemantics_invariants Nat).2.2.2.1 { elems := [1, 2], cap := 4 } 1 9
      { elems := [1, 9, 2], cap := 4 } (by decide) (by decide)
  · exact (successSemantics_invariants Nat).2.2.2.2.1 { elems := [1, 2, 3], cap := 4 } 1
      { elems := [1, 3], cap := 4 } (by decide) (by decide)
  · exact (successSemantics_invariants Nat).2.2.2.2.2.1 { elems := [1, 2], cap := 3 }
      { elems := [1], cap := 3 } (by decide) (by decide)
  · exact (successSemantics_invariants Nat).2.2.2.2.2.2.1 { elems := [1], cap := 1 } 5
      (by decide)
  · exact (successSemantics_invariants Nat).2.2.2.2.2.2.2.1 { elems := [1, 2], cap := 2 }
      0 4 (by decide)
  · exact (successSemantics_invariants Nat).2.2.2.2.2.2.2.2.2.1 { elems := [9], cap := 1 }
      { elems := [1, 2], cap := 3 } (by decide)
  · exact (successSemantics_invariants Nat).2.2.2.2.2.2.2.2.2.2 { elems := [1], cap := 2 }
      { elems := [2, 3], cap := 5 } (by decide) (by decide)

end AdvVector
